import Mathlib

/-!
Verification development for the cascading filter resolution engine of the
collection front end.  The definitions below are shallow embeddings of the
TypeScript sources:

* `useCascadingFilters.tsx` (the hook: `toId`, `CASCADE_DEPENDENCIES`,
  debounced cascading effect, `clearAllFilters`, response cache and
  pending-call deduplication);
* the `FilterBar` component without dropdown tracking (`pickFirstId`,
  `clearAllFilters`, live cascading effect);
* the `MobileFilterBar` component and the `FilterBar` variant with
  `activeOpenKey` (`normalize`, `buildSelectedIds` with comma-separated
  multi-IDs and omit key, `impactedListsForKey`, `handleApplyFilters`,
  `clearAllFilters`, live cascading effect).

JavaScript objects keyed by filter names become total functions from the
`FilterKey` enumeration; name-to-ID maps become `String → Option Nat`;
asynchronous network results become explicit `Except` values passed to the
continuation of the `await`.
-/

/-- The keys of the `FilterState` object in `useCascadingFilters.tsx`,
in the insertion order of the object literal.  The first seven are the
cascading categories. -/
inductive FilterKey
  | branch
  | teamLead
  | rm
  | sourceTeamLead
  | sourceRm
  | dealer
  | lender
  | status
  | emiMonth
  | repayment
  | lastMonthBounce
  | ptpDate
  | vehicleStatus
  | dpdBucket
  | specialCaseFilter
deriving DecidableEq, Repr, Fintype

/-- The seven cascading categories (the request-building call sites consult
only these). -/
def FilterKey.isCascading : FilterKey → Bool
  | .branch | .teamLead | .rm | .sourceTeamLead | .sourceRm | .dealer | .lender => true
  | _ => false

/-- The string each key is written as in the TypeScript sources
(`handleFilterChange(key, ...)`, switch labels, dependency-table keys). -/
def FilterKey.jsName : FilterKey → String
  | .branch => "branch"
  | .teamLead => "teamLead"
  | .rm => "rm"
  | .sourceTeamLead => "sourceTeamLead"
  | .sourceRm => "sourceRm"
  | .dealer => "dealer"
  | .lender => "lender"
  | .status => "status"
  | .emiMonth => "emiMonth"
  | .repayment => "repayment"
  | .lastMonthBounce => "lastMonthBounce"
  | .ptpDate => "ptpDate"
  | .vehicleStatus => "vehicleStatus"
  | .dpdBucket => "dpdBucket"
  | .specialCaseFilter => "specialCaseFilter"

/-- `Object.keys` of the filter state, in insertion order. -/
def filterKeys : List FilterKey :=
  [.branch, .teamLead, .rm, .sourceTeamLead, .sourceRm, .dealer, .lender,
   .status, .emiMonth, .repayment, .lastMonthBounce, .ptpDate,
   .vehicleStatus, .dpdBucket, .specialCaseFilter]

/-- A filter selection: per key, the ordered list of selected display names. -/
abbrev Selection := FilterKey → List String

def emptySelection : Selection := fun _ => []

/-- One name-to-ID map (a JavaScript object `Record of string to number`). -/
abbrev NameIdMap := String → Option Nat

/-- The seven name-to-ID maps kept in `nameToId` / `idMaps` state. -/
structure IdMaps where
  branches : NameIdMap
  team_leads : NameIdMap
  rms : NameIdMap
  source_team_leads : NameIdMap
  source_rms : NameIdMap
  dealers : NameIdMap
  lenders : NameIdMap

/-- An `{id, name}` pair of the cascading endpoint response. -/
structure CascadeOption where
  id : Nat
  name : String
deriving DecidableEq, Repr

/-- The response shape of `GET /filters/cascading`; every array field may be
missing (the call sites coalesce with `|| []`). -/
structure CascadingResponse where
  branches : Option (List CascadeOption)
  team_leads : Option (List CascadeOption)
  rms : Option (List CascadeOption)
  source_team_leads : Option (List CascadeOption)
  source_rms : Option (List CascadeOption)
  dealers : Option (List CascadeOption)
  lenders : Option (List CascadeOption)
deriving DecidableEq, Repr

/-! ### Name normalization (MobileFilterBar / FilterBar with activeOpenKey)

`const normalize = (s) => s.replace(/\u00A0/g, ' ').replace(/\s+/g, ' ')
  .trim().toLowerCase();` -/

/-- The characters matched by the JavaScript regex class `\s` that can occur
in display names (space, tab, newline, carriage return, vertical tab, form
feed, no-break space). -/
def jsWhitespace (c : Char) : Bool :=
  c = ' ' || c = '\t' || c = '\n' || c = '\r' || c = '\x0b' || c = '\x0c' ||
    c = '\u00A0'

/-- Replace every maximal run of whitespace by a single space
(`.replace(/\s+/g, ' ')`). -/
def collapseWs : List Char → List Char
  | [] => []
  | c :: cs =>
    let rest := collapseWs cs
    if jsWhitespace c then
      match rest with
      | ' ' :: _ => rest
      | _ => ' ' :: rest
    else c :: rest

/-- `.trim()`: drop whitespace at both ends. -/
def trimJs (cs : List Char) : List Char :=
  ((cs.dropWhile jsWhitespace).reverse.dropWhile jsWhitespace).reverse

/-- The `normalize` helper of MobileFilterBar and of the FilterBar variant
with `activeOpenKey`. -/
def normalizeName (s : String) : String :=
  let step1 := s.data.map (fun c => if c = '\u00A0' then ' ' else c)
  String.mk ((trimJs (collapseWs step1)).map Char.toLower)

/-! ### Request-parameter builders -/

/-- `toId` of the debounced cascading effect in `useCascadingFilters.tsx`:
`if (!names || names.length === 0) return undefined; return map[names[0]];`
(first selection only, raw names). -/
def toId (map : NameIdMap) (names : List String) : Option Nat :=
  match names with
  | [] => none
  | n :: _ => map n

/-- `pickFirstId` of the FilterBar variant without dropdown tracking:
`const first = names[0]; return map[first];` after the emptiness guard. -/
def pickFirstId (map : NameIdMap) (names : List String) : Option Nat :=
  match names with
  | [] => none
  | first :: _ => map first

/-- `toIds` inside `buildSelectedIds` of MobileFilterBar and of the
FilterBar variant with `activeOpenKey`: maps every selected name through
the normalized ID map, keeps those that resolve, and joins them
comma-separated; `undefined` when nothing resolves. -/
def toIds (map : NameIdMap) (names : List String) : Option String :=
  match names with
  | [] => none
  | _ :: _ =>
    let ids := names.filterMap (fun n => map (normalizeName n))
    match ids with
    | [] => none
    | _ :: _ => some (String.intercalate "," (ids.map (fun i => toString i)))

/-- The request parameters built by MobileFilterBar / the FilterBar variant
with `activeOpenKey` (comma-separated ID strings). -/
structure CascadeParams where
  branch_id : Option String
  tl_id : Option String
  rm_id : Option String
  source_tl_id : Option String
  source_rm_id : Option String
  dealer_id : Option String
  lender_id : Option String
deriving DecidableEq, Repr

/-- The request parameters built by the hook and by the FilterBar variant
without dropdown tracking (single numeric IDs). -/
structure HookParams where
  branch_id : Option Nat
  tl_id : Option Nat
  rm_id : Option Nat
  source_tl_id : Option Nat
  source_rm_id : Option Nat
  dealer_id : Option Nat
  lender_id : Option Nat
deriving DecidableEq, Repr

/-- `buildSelectedIds(omitKey)` of MobileFilterBar and of the FilterBar
variant with `activeOpenKey`: `omitSet = new Set([omitKey || ''])`, and each
parameter is forced to `undefined` when its key is in the omit set. -/
def buildSelectedIds (idMaps : IdMaps) (tempFilters : Selection)
    (omitKey : Option FilterKey) : CascadeParams :=
  let omits : FilterKey → Bool := fun k => omitKey = some k
  { branch_id := if omits .branch then none else
      toIds idMaps.branches (tempFilters .branch)
    tl_id := if omits .teamLead then none else
      toIds idMaps.team_leads (tempFilters .teamLead)
    rm_id := if omits .rm then none else
      toIds idMaps.rms (tempFilters .rm)
    source_tl_id := if omits .sourceTeamLead then none else
      toIds idMaps.source_team_leads (tempFilters .sourceTeamLead)
    source_rm_id := if omits .sourceRm then none else
      toIds idMaps.source_rms (tempFilters .sourceRm)
    dealer_id := if omits .dealer then none else
      toIds idMaps.dealers (tempFilters .dealer)
    lender_id := if omits .lender then none else
      toIds idMaps.lenders (tempFilters .lender) }

/-- `buildSelectedIds()` of the FilterBar variant without dropdown tracking
(first selection only, raw names, no omission). -/
def buildSelectedIdsFirstOnly (idMaps : IdMaps) (tempFilters : Selection) :
    HookParams :=
  { branch_id := pickFirstId idMaps.branches (tempFilters .branch)
    tl_id := pickFirstId idMaps.team_leads (tempFilters .teamLead)
    rm_id := pickFirstId idMaps.rms (tempFilters .rm)
    source_tl_id := pickFirstId idMaps.source_team_leads (tempFilters .sourceTeamLead)
    source_rm_id := pickFirstId idMaps.source_rms (tempFilters .sourceRm)
    dealer_id := pickFirstId idMaps.dealers (tempFilters .dealer)
    lender_id := pickFirstId idMaps.lenders (tempFilters .lender) }

/-- The `params` object of the debounced cascading effect in the hook. -/
def hookParams (nameToId : IdMaps) (filters : Selection) : HookParams :=
  { branch_id := toId nameToId.branches (filters .branch)
    tl_id := toId nameToId.team_leads (filters .teamLead)
    rm_id := toId nameToId.rms (filters .rm)
    source_tl_id := toId nameToId.source_team_leads (filters .sourceTeamLead)
    source_rm_id := toId nameToId.source_rms (filters .sourceRm)
    dealer_id := toId nameToId.dealers (filters .dealer)
    lender_id := toId nameToId.lenders (filters .lender) }

/-- The request parameter of `CascadeParams` belonging to a cascading
category (for stating per-category properties). -/
def CascadeParams.forKey (p : CascadeParams) : FilterKey → Option String
  | .branch => p.branch_id
  | .teamLead => p.tl_id
  | .rm => p.rm_id
  | .sourceTeamLead => p.source_tl_id
  | .sourceRm => p.source_rm_id
  | .dealer => p.dealer_id
  | .lender => p.lender_id
  | _ => none

/-! ### Concrete sample data for closed statements -/

def sampleMap : NameIdMap := fun n =>
  if n = "pune" then some 7 else if n = "mumbai" then some 9 else none

def sampleIdMaps : IdMaps :=
  { branches := sampleMap
    team_leads := sampleMap
    rms := sampleMap
    source_team_leads := sampleMap
    source_rms := sampleMap
    dealers := sampleMap
    lenders := sampleMap }

def sampleTemp : Selection := fun k =>
  match k with
  | .branch => ["Pune", "Mumbai"]
  | _ => []

/-! ## Claim C1 -/

/-- Claim C1 as frozen is false: at the `buildSelectedIds` call sites of
MobileFilterBar and of the FilterBar variant with `activeOpenKey`, the
second selected name does influence the request parameter (two mapped
branch names yield the comma-separated parameter "7,9", different from the
parameter "7" built for the first name alone). -/
theorem c1_multi_id_counterexample :
    toIds sampleMap ["Pune", "Mumbai"] ≠ toIds sampleMap ["Pune"] ∧
    toIds sampleMap ["Pune", "Mumbai"] = some "7,9" ∧
    (buildSelectedIds sampleIdMaps sampleTemp none).branch_id = some "7,9" := by
  refine ⟨by decide, by decide, by decide⟩

/-- Claim C1, amended: the first-selected-name-only behavior holds at the
`toId` call site of `useCascadingFilters.tsx` and at the `pickFirstId` call
site of the plain FilterBar (the names after the first never influence the
parameter there, which equals the mapped ID of the first name); the
`buildSelectedIds` call sites of MobileFilterBar and of the FilterBar
variant with `activeOpenKey` instead join the IDs of all selected mapped
names comma-separated. -/
theorem c1_first_name_only (map : NameIdMap) (n : String)
    (rest rest' : List String) :
    toId map (n :: rest) = toId map (n :: rest') ∧
    pickFirstId map (n :: rest) = pickFirstId map (n :: rest') ∧
    toId map (n :: rest) = map n ∧
    pickFirstId map (n :: rest) = map n :=
  ⟨rfl, rfl, rfl, rfl⟩

/-! ## Claim C2 -/

/-- Claim C2: resolving while the dropdown of cascading category `c` is open
(`activeOpenKey = c`) forces the request parameter for `c` to be absent,
regardless of the current selection and ID maps, at the `buildSelectedIds`
call sites of MobileFilterBar and of the FilterBar variant with
`activeOpenKey`. -/
theorem c2_omission_invariant (idMaps : IdMaps) (temp : Selection)
    (c : FilterKey) (h : c.isCascading = true) :
    (buildSelectedIds idMaps temp (some c)).forKey c = none := by
  clear h
  cases c <;> simp [buildSelectedIds, CascadeParams.forKey]

/-- Witness for C2 at a concrete input: the branch dropdown is open, branch
has a selection that would otherwise resolve, and the built parameter for
branch is absent. -/
theorem c2_omission_witness :
    FilterKey.isCascading .branch = true ∧
    (buildSelectedIds sampleIdMaps sampleTemp (some .branch)).forKey .branch = none :=
  ⟨by decide, c2_omission_invariant sampleIdMaps sampleTemp .branch (by decide)⟩

/-! ### Dependency tables

Two different impacted-lists tables appear in the sources: the
`CASCADE_DEPENDENCIES` record of `useCascadingFilters.tsx` (looked up with
`CASCADE_DEPENDENCIES[lastKey] || []`), and the `impactedListsForKey`
switch of FilterBar / MobileFilterBar (the hook variant using
`useFilterCache` inlines the same switch). -/

/-- `CASCADE_DEPENDENCIES` of `useCascadingFilters.tsx`; the default branch
is the `|| []` at the lookup site. -/
def CASCADE_DEPENDENCIES : String → List String
  | "branch" => ["teamLeads", "rms", "sourceTeamLeads", "sourceRms", "dealers", "lenders"]
  | "teamLead" => ["rms", "dealers", "lenders"]
  | "rm" => ["dealers", "lenders"]
  | "sourceTeamLead" => ["sourceRms", "dealers", "lenders"]
  | "sourceRm" => ["dealers", "lenders"]
  | "dealer" => ["branches", "teamLeads", "rms", "sourceTeamLeads", "sourceRms", "lenders"]
  | "lender" => ["branches", "teamLeads", "rms", "sourceTeamLeads", "sourceRms", "dealers"]
  | _ => []

/-- `impactedListsForKey` of FilterBar and MobileFilterBar (and the inline
switch of the `useFilterCache` hook variant): the finer table with the
reverse edges, over snake-case list names. -/
def impactedListsForKey : Option String → List String
  | some "branch" => ["team_leads", "rms", "source_team_leads", "source_rms", "dealers", "lenders"]
  | some "teamLead" => ["rms", "source_team_leads", "source_rms", "dealers", "lenders"]
  | some "rm" => ["team_leads", "source_team_leads", "source_rms", "dealers", "lenders"]
  | some "sourceTeamLead" => ["source_rms", "team_leads", "rms", "dealers", "lenders"]
  | some "sourceRm" => ["source_team_leads", "team_leads", "rms", "dealers", "lenders"]
  | some "dealer" => ["branches", "team_leads", "rms", "source_team_leads", "source_rms", "lenders"]
  | some "lender" => ["branches", "team_leads", "rms", "source_team_leads", "source_rms", "dealers"]
  | _ => []

/-! ## Claim C8 -/

/-- Claim C8 as frozen is false: the `impactedListsForKey` table of
FilterBar / MobileFilterBar maps `rm` to a set containing `team_leads`,
which is not in the claimed set (dealer and lender lists only), so not
every call site that consults such a table agrees with the claimed
entries. -/
theorem c8_dependency_counterexample :
    "team_leads" ∈ impactedListsForKey (some "rm") ∧
    "team_leads" ∉ (["dealers", "lenders"] : List String) := by
  refine ⟨by decide, by decide⟩

/-- Claim C8, amended: the `CASCADE_DEPENDENCIES` table of the hook maps
`rm` to exactly the dealer and lender lists and `teamLead` to exactly the
rm, dealer and lender lists, as claimed; but the `impactedListsForKey`
table of FilterBar / MobileFilterBar maps `rm` to the team-lead,
source-team-lead, source-rm, dealer and lender lists and `teamLead` to the
rm, source-team-lead, source-rm, dealer and lender lists. -/
theorem c8_dependency_tables :
    CASCADE_DEPENDENCIES "rm" = ["dealers", "lenders"] ∧
    CASCADE_DEPENDENCIES "teamLead" = ["rms", "dealers", "lenders"] ∧
    impactedListsForKey (some "rm") =
      ["team_leads", "source_team_leads", "source_rms", "dealers", "lenders"] ∧
    impactedListsForKey (some "teamLead") =
      ["rms", "source_team_leads", "source_rms", "dealers", "lenders"] := by
  refine ⟨rfl, rfl, rfl, rfl⟩

/-! ### Apply (the Done button)

`handleApplyFilters` of FilterBar and MobileFilterBar iterates
`Object.keys(tempFilters)` and compares
`JSON.stringify(currentValue.sort())` with `JSON.stringify(newValue.sort())`.
`Array.prototype.sort()` sorts the stored array in place (ascending string
order) and returns it, and `JSON.stringify` is injective on arrays of
strings, so the comparison is equality of the sorted lists and both state
copies end up holding sorted arrays for every key. -/

/-- Lexicographic comparison of character sequences by code unit, the
string comparison used by the default `Array.prototype.sort()` comparator. -/
def lexLe : List Char → List Char → Bool
  | [], _ => true
  | _ :: _, [] => false
  | a :: as, b :: bs =>
    if a.toNat < b.toNat then true
    else if b.toNat < a.toNat then false
    else lexLe as bs

/-- The string order of the default `Array.prototype.sort()` comparator. -/
def jsLe (a b : String) : Prop := lexLe a.data b.data = true

instance : DecidableRel jsLe := fun a b => by
  unfold jsLe
  infer_instance

theorem lexLe_total : ∀ as bs : List Char, lexLe as bs = true ∨ lexLe bs as = true := by
  intro as
  induction as with
  | nil => intro bs; left; rfl
  | cons a as ih =>
    intro bs
    cases bs with
    | nil => right; rfl
    | cons b bs =>
      unfold lexLe
      rcases Nat.lt_trichotomy a.toNat b.toNat with h | h | h
      · left; simp [h]
      · have h1 : ¬ a.toNat < b.toNat := by omega
        have h2 : ¬ b.toNat < a.toNat := by omega
        simp only [if_neg h1, if_neg h2]
        exact ih bs
      · right; simp [h]

theorem lexLe_trans : ∀ as bs cs : List Char,
    lexLe as bs = true → lexLe bs cs = true → lexLe as cs = true := by
  intro as
  induction as with
  | nil => intro bs cs _ _; rfl
  | cons a as ih =>
    intro bs cs hab hbc
    cases bs with
    | nil => simp [lexLe] at hab
    | cons b bs =>
      cases cs with
      | nil => simp [lexLe] at hbc
      | cons c cs =>
        unfold lexLe at hab hbc ⊢
        by_cases h1 : a.toNat < b.toNat
        · by_cases h2 : b.toNat < c.toNat
          · have : a.toNat < c.toNat := by omega
            simp [this]
          · have h3 : ¬ c.toNat < b.toNat := by
              intro hcb
              simp [if_neg h2, if_pos hcb] at hbc
            have : a.toNat < c.toNat := by omega
            simp [this]
        · by_cases h1' : b.toNat < a.toNat
          · simp [if_neg h1, if_pos h1'] at hab
          · have hba : a.toNat = b.toNat := by omega
            by_cases h2 : b.toNat < c.toNat
            · have : a.toNat < c.toNat := by omega
              simp [this]
            · by_cases h2' : c.toNat < b.toNat
              · simp [if_neg h2, if_pos h2'] at hbc
              · have h3 : ¬ a.toNat < c.toNat := by omega
                have h4 : ¬ c.toNat < a.toNat := by omega
                simp only [if_neg h1, if_neg h1'] at hab
                simp only [if_neg h2, if_neg h2'] at hbc
                simp only [if_neg h3, if_neg h4]
                exact ih bs cs hab hbc

instance : IsTotal String jsLe := ⟨fun a b => lexLe_total a.data b.data⟩

instance : IsTrans String jsLe := ⟨fun a b c => lexLe_trans a.data b.data c.data⟩

/-- The ascending string sort performed by `Array.prototype.sort()`. -/
def sortJs (l : List String) : List String :=
  List.insertionSort jsLe l

/-- The outcome of `handleApplyFilters`: both state copies after the
in-place sorts, and the `onFilterChange` invocations in key order. -/
structure ApplyResult where
  filters : Selection
  tempFilters : Selection
  notifications : List (FilterKey × List String)

/-- `handleApplyFilters` of FilterBar / MobileFilterBar. -/
def handleApplyFilters (filters tempFilters : Selection) : ApplyResult :=
  { filters := fun k => sortJs (filters k)
    tempFilters := fun k => sortJs (tempFilters k)
    notifications := filterKeys.filterMap (fun k =>
      if sortJs (filters k) ≠ sortJs (tempFilters k) then
        some (k, sortJs (tempFilters k))
      else none) }

/-- The spec phrase "sorted-unique value list" of a selection: duplicates
removed, then sorted ascending. -/
def sortedUnique (l : List String) : List String := sortJs l.dedup

/-- Every filter key occurs in the key list. -/
theorem mem_filterKeys (k : FilterKey) : k ∈ filterKeys := by
  cases k <;> decide

/-- The key list has no duplicate keys. -/
theorem filterKeys_nodup : filterKeys.Nodup := by decide

/-- Counting occurrences of a key among the kept elements of a guarded
`filterMap`: a key present exactly once in the traversed list contributes
one when its guard holds and zero otherwise. -/
theorem countP_filterMap_guard {α β : Type} [DecidableEq α]
    (cond : α → Prop) [DecidablePred cond] (g : α → β) (k : α) :
    ∀ L : List α, L.Nodup → k ∈ L →
      ((L.filterMap (fun a => if cond a then some (a, g a) else none)).countP
        (fun p => decide (p.1 = k))) = if cond k then 1 else 0 := by
  intro L
  induction L with
  | nil => intro _ hk; cases hk
  | cons a L ih =>
    intro hnd hk
    have hndL : L.Nodup := hnd.of_cons
    have haL : a ∉ L := (List.nodup_cons.mp hnd).1
    have hzero : ∀ M : List α, k ∉ M →
        ((M.filterMap (fun a => if cond a then some (a, g a) else none)).countP
          (fun p => decide (p.1 = k))) = 0 := by
      intro M hkM
      rw [List.countP_eq_zero]
      intro p hp
      rcases List.mem_filterMap.mp hp with ⟨x, hxM, hx⟩
      by_cases hcx : cond x
      · rw [if_pos hcx] at hx
        cases hx
        simp only [decide_eq_true_eq]
        intro hxk
        exact hkM (hxk ▸ hxM)
      · rw [if_neg hcx] at hx
        cases hx
    rw [List.filterMap_cons]
    by_cases hca : cond a
    · rw [if_pos hca]
      rw [List.countP_cons]
      by_cases hka : k = a
      · subst hka
        rw [hzero L haL]
        simp [hca]
      · have hkL : k ∈ L := by
          cases List.mem_cons.mp hk with
          | inl h => exact absurd h hka
          | inr h => exact h
        rw [ih hndL hkL]
        simp [Ne.symm hka]
    · rw [if_neg hca]
      by_cases hka : k = a
      · subst hka
        rw [hzero L haL]
        simp [hca]
      · have hkL : k ∈ L := by
          cases List.mem_cons.mp hk with
          | inl h => exact absurd h hka
          | inr h => exact h
        exact ih hndL hkL

/-! ## Claim C5 -/

/-- Claim C5: under the Selection data-model invariant (names unique within
a category), `apply()` invokes `onFilterChange` exactly once for every
category whose sorted-unique value list differs between the temporary and
the applied state, and zero times for every category whose values are
set-equal. -/
theorem c5_apply_diff_minimality (filters tempFilters : Selection)
    (hA : ∀ k, (filters k).Nodup) (hT : ∀ k, (tempFilters k).Nodup)
    (k : FilterKey) :
    ((handleApplyFilters filters tempFilters).notifications.countP
      (fun p => decide (p.1 = k))) =
      if sortedUnique (filters k) = sortedUnique (tempFilters k) then 0 else 1 := by
  have h := countP_filterMap_guard
    (fun k' => sortJs (filters k') ≠ sortJs (tempFilters k'))
    (fun k' => sortJs (tempFilters k')) k filterKeys filterKeys_nodup
    (mem_filterKeys k)
  have hsu : ∀ f : Selection, (∀ j, (f j).Nodup) →
      sortedUnique (f k) = sortJs (f k) := by
    intro f hf
    unfold sortedUnique
    rw [List.dedup_eq_self.mpr (hf k)]
  rw [handleApplyFilters] at *
  simp only at h
  rw [h, hsu filters hA, hsu tempFilters hT]
  by_cases hc : sortJs (filters k) = sortJs (tempFilters k) <;> simp [hc]

/-- Witness for C5 at a concrete input: branch changed (one notification),
team lead untouched (zero notifications). -/
theorem c5_apply_diff_witness :
    (∀ k, ((fun k => match k with
        | FilterKey.branch => ["Pune"]
        | FilterKey.teamLead => ["Asha", "Ravi"]
        | _ => [] : Selection) k).Nodup) ∧
    (∀ k, ((fun k => match k with
        | FilterKey.branch => ["Mumbai", "Pune"]
        | FilterKey.teamLead => ["Ravi", "Asha"]
        | _ => [] : Selection) k).Nodup) ∧
    (((handleApplyFilters
        (fun k => match k with
          | FilterKey.branch => ["Pune"]
          | FilterKey.teamLead => ["Asha", "Ravi"]
          | _ => [])
        (fun k => match k with
          | FilterKey.branch => ["Mumbai", "Pune"]
          | FilterKey.teamLead => ["Ravi", "Asha"]
          | _ => [])).notifications.countP
        (fun p => decide (p.1 = FilterKey.branch))) = 1 ∧
     ((handleApplyFilters
        (fun k => match k with
          | FilterKey.branch => ["Pune"]
          | FilterKey.teamLead => ["Asha", "Ravi"]
          | _ => [])
        (fun k => match k with
          | FilterKey.branch => ["Mumbai", "Pune"]
          | FilterKey.teamLead => ["Ravi", "Asha"]
          | _ => [])).notifications.countP
        (fun p => decide (p.1 = FilterKey.teamLead))) = 0) := by
  refine ⟨by intro k; cases k <;> decide, by intro k; cases k <;> decide, ?_, ?_⟩
  · have := c5_apply_diff_minimality
      (fun k => match k with
        | FilterKey.branch => ["Pune"]
        | FilterKey.teamLead => ["Asha", "Ravi"]
        | _ => [])
      (fun k => match k with
        | FilterKey.branch => ["Mumbai", "Pune"]
        | FilterKey.teamLead => ["Ravi", "Asha"]
        | _ => [])
      (by intro k; cases k <;> decide) (by intro k; cases k <;> decide)
      FilterKey.branch
    rw [this]
    decide
  · have := c5_apply_diff_minimality
      (fun k => match k with
        | FilterKey.branch => ["Pune"]
        | FilterKey.teamLead => ["Asha", "Ravi"]
        | _ => [])
      (fun k => match k with
        | FilterKey.branch => ["Mumbai", "Pune"]
        | FilterKey.teamLead => ["Ravi", "Asha"]
        | _ => [])
      (by intro k; cases k <;> decide) (by intro k; cases k <;> decide)
      FilterKey.teamLead
    rw [this]
    decide

/-! ## Claim C10 -/

/-- Claim C10: `apply()` leaves, for every category (also the ones whose
values are not copied and produce no notification), the stored selection
arrays of both the applied and the temporary state equal to the ascending
sort of their previous contents - a sorted permutation - so the UI click
order survives only when it already was the sorted order. -/
theorem c10_apply_sorts_all (filters tempFilters : Selection) (k : FilterKey) :
    (handleApplyFilters filters tempFilters).filters k = sortJs (filters k) ∧
    (handleApplyFilters filters tempFilters).tempFilters k = sortJs (tempFilters k) ∧
    List.Sorted jsLe ((handleApplyFilters filters tempFilters).filters k) ∧
    List.Sorted jsLe ((handleApplyFilters filters tempFilters).tempFilters k) ∧
    List.Perm ((handleApplyFilters filters tempFilters).filters k) (filters k) ∧
    List.Perm ((handleApplyFilters filters tempFilters).tempFilters k) (tempFilters k) :=
  ⟨rfl, rfl,
   List.sorted_insertionSort jsLe (filters k),
   List.sorted_insertionSort jsLe (tempFilters k),
   List.perm_insertionSort jsLe (filters k),
   List.perm_insertionSort jsLe (tempFilters k)⟩

/-! ### Component state and the clear-all / live-cascade handlers -/

/-- The `cascadeOverrides` state of FilterBar / MobileFilterBar
(`Partial Record from list name to string array`): per option list, the
override list when present. -/
structure Overrides where
  branches : Option (List String)
  team_leads : Option (List String)
  rms : Option (List String)
  source_team_leads : Option (List String)
  source_rms : Option (List String)
  dealers : Option (List String)
  lenders : Option (List String)
deriving DecidableEq, Repr

/-- The empty overrides object `{}`. -/
def emptyOverrides : Overrides :=
  { branches := none, team_leads := none, rms := none, source_team_leads := none
    source_rms := none, dealers := none, lenders := none }

/-- `toNames(arr)`: display names of a possibly missing option list
(`(arr || []).map(i => i.name)`). -/
def toNames (arr : Option (List CascadeOption)) : List String :=
  (arr.getD []).map (fun i => i.name)

/-- The overrides object built in the live cascading effects of FilterBar
and MobileFilterBar: every one of the seven lists is overwritten from the
response (the `impacted` list is computed but not consulted there). -/
def allOverrides (res : CascadingResponse) : Overrides :=
  { branches := some (toNames res.branches)
    team_leads := some (toNames res.team_leads)
    rms := some (toNames res.rms)
    source_team_leads := some (toNames res.source_team_leads)
    source_rms := some (toNames res.source_rms)
    dealers := some (toNames res.dealers)
    lenders := some (toNames res.lenders) }

/-- `mergeIdMaps` of MobileFilterBar / FilterBar with `activeOpenKey`
spread into the previous map: `{ ...prev, ...Object.fromEntries(items.map(
i => [normalize(i.name), i.id])) }`; with duplicate normalized names the
later entry wins. -/
def mergeIdMapNorm (prev : NameIdMap) (items : List CascadeOption) : NameIdMap :=
  fun n =>
    match (items.filter (fun i => normalizeName i.name == n)).getLast? with
    | some i => some i.id
    | none => prev n

/-- Same merge without normalization (`mergeMap` of the hook and `mergeIdMaps`
of the plain FilterBar). -/
def mergeIdMapRaw (prev : NameIdMap) (items : List CascadeOption) : NameIdMap :=
  fun n =>
    match (items.filter (fun i => i.name == n)).getLast? with
    | some i => some i.id
    | none => prev n

/-- All seven id maps merged from a response with normalization. -/
def mergeAllIdMapsNorm (prev : IdMaps) (res : CascadingResponse) : IdMaps :=
  { branches := mergeIdMapNorm prev.branches (res.branches.getD [])
    team_leads := mergeIdMapNorm prev.team_leads (res.team_leads.getD [])
    rms := mergeIdMapNorm prev.rms (res.rms.getD [])
    source_team_leads := mergeIdMapNorm prev.source_team_leads (res.source_team_leads.getD [])
    source_rms := mergeIdMapNorm prev.source_rms (res.source_rms.getD [])
    dealers := mergeIdMapNorm prev.dealers (res.dealers.getD [])
    lenders := mergeIdMapNorm prev.lenders (res.lenders.getD []) }

/-- All seven id maps merged from a response without normalization. -/
def mergeAllIdMapsRaw (prev : IdMaps) (res : CascadingResponse) : IdMaps :=
  { branches := mergeIdMapRaw prev.branches (res.branches.getD [])
    team_leads := mergeIdMapRaw prev.team_leads (res.team_leads.getD [])
    rms := mergeIdMapRaw prev.rms (res.rms.getD [])
    source_team_leads := mergeIdMapRaw prev.source_team_leads (res.source_team_leads.getD [])
    source_rms := mergeIdMapRaw prev.source_rms (res.source_rms.getD [])
    dealers := mergeIdMapRaw prev.dealers (res.dealers.getD [])
    lenders := mergeIdMapRaw prev.lenders (res.lenders.getD []) }

/-- Component state of MobileFilterBar and of the FilterBar variant with
`activeOpenKey`.  `filters` is the applied selection owned by the parent
and written through `onFilterChange`. -/
structure MobileFilterBarState where
  isOpen : Bool
  activeOpenKey : Option FilterKey
  tempFilters : Selection
  filters : Selection
  lastChangedKey : Option FilterKey
  idMaps : IdMaps
  cascadeOverrides : Overrides

/-- `clearAllFilters` of MobileFilterBar and of the FilterBar variant with
`activeOpenKey`: empties the temporary filters, calls `onFilterChange(key,
[])` for every key, resets `activeOpenKey`, `cascadeOverrides` and
`lastChangedKeyRef`, and closes the panel when open. -/
def mobileClearAllFilters (s : MobileFilterBarState) : MobileFilterBarState :=
  { s with
    tempFilters := fun _ => []
    filters := fun _ => []
    activeOpenKey := none
    cascadeOverrides := emptyOverrides
    lastChangedKey := none
    isOpen := false }

/-- The continuation of the live cascading effect of MobileFilterBar / the
FilterBar variant with `activeOpenKey` once the awaited network call
settles: on success merge the id maps and overwrite all seven override
lists; on failure (`catch`) only `setCascadeOverrides({})` runs. -/
def liveCascadeStep (s : MobileFilterBarState)
    (result : Except Unit CascadingResponse) : MobileFilterBarState :=
  match result with
  | Except.ok res =>
    { s with
      idMaps := mergeAllIdMapsNorm s.idMaps res
      cascadeOverrides := allOverrides res }
  | Except.error _ => { s with cascadeOverrides := emptyOverrides }

/-- Component state of the FilterBar variant without dropdown tracking. -/
structure FilterBarState where
  isOpen : Bool
  tempFilters : Selection
  filters : Selection
  lastChangedKey : Option FilterKey
  idMaps : IdMaps
  cascadeOverrides : Overrides

/-- `clearAllFilters` of the FilterBar variant without dropdown tracking:
empties the temporary filters and calls `onFilterChange(key, [])` for every
key - nothing else (the panel stays as it is, and `lastChangedKeyRef` and
`cascadeOverrides` keep their values). -/
def filterBarClearAllFilters (s : FilterBarState) : FilterBarState :=
  { s with
    tempFilters := fun _ => []
    filters := fun _ => [] }

/-- The `availableOptions` state of `useCascadingFilters.tsx`. -/
structure AvailableOptions where
  branches : List String
  teamLeads : List String
  rms : List String
  sourceTeamLeads : List String
  sourceRms : List String
  dealers : List String
  lenders : List String
  statuses : List String
  emiMonths : List String
  repayments : List String
  lastMonthBounce : List String
  ptpDateOptions : List String
  vehicleStatusOptions : List String
deriving DecidableEq, Repr

/-- State of the `useCascadingFilters` hook relevant to the cascading
engine. -/
structure HookState where
  filters : Selection
  lastChangedKey : Option FilterKey
  nameToId : IdMaps
  availableOptions : AvailableOptions

/-- `clearAllFilters` of `useCascadingFilters.tsx`: replaces the filter
state by the all-empty literal; `lastChangedKeyRef`, the name-to-id maps
and the available options are not touched. -/
def hookClearAllFilters (s : HookState) : HookState :=
  { s with filters := fun _ => [] }

/-- The `availableOptions` update of the hook's debounced cascading effect:
when a last-changed key is known, only the lists in
`CASCADE_DEPENDENCIES[lastKey]` are overwritten from the response;
otherwise all seven are. -/
def hookUpdateOptions (lastKey : Option String) (res : CascadingResponse)
    (prev : AvailableOptions) : AvailableOptions :=
  match lastKey with
  | some k =>
    let impacted := CASCADE_DEPENDENCIES k
    { prev with
      teamLeads := if impacted.contains "teamLeads" then toNames res.team_leads else prev.teamLeads
      rms := if impacted.contains "rms" then toNames res.rms else prev.rms
      sourceTeamLeads := if impacted.contains "sourceTeamLeads" then toNames res.source_team_leads else prev.sourceTeamLeads
      sourceRms := if impacted.contains "sourceRms" then toNames res.source_rms else prev.sourceRms
      dealers := if impacted.contains "dealers" then toNames res.dealers else prev.dealers
      lenders := if impacted.contains "lenders" then toNames res.lenders else prev.lenders
      branches := if impacted.contains "branches" then toNames res.branches else prev.branches }
  | none =>
    { prev with
      teamLeads := toNames res.team_leads
      rms := toNames res.rms
      sourceTeamLeads := toNames res.source_team_leads
      sourceRms := toNames res.source_rms
      dealers := toNames res.dealers
      lenders := toNames res.lenders
      branches := toNames res.branches }

/-- The continuation of the hook's debounced cascading effect once the
awaited network call settles: on success merge the name-to-id maps and
update the impacted option lists; on failure (`catch`) only a console log
runs - the state is untouched. -/
def hookCascadeStep (s : HookState)
    (result : Except Unit CascadingResponse) : HookState :=
  match result with
  | Except.ok res =>
    { s with
      nameToId := mergeAllIdMapsRaw s.nameToId res
      availableOptions :=
        hookUpdateOptions (s.lastChangedKey.map FilterKey.jsName) res
          s.availableOptions }
  | Except.error _ => s

/-! ## Claim C7 -/

/-- A concrete prior state for the FilterBar variant without dropdown
tracking: panel open, a recorded last-changed key, and a nonempty override
list. -/
def c7PriorState : FilterBarState :=
  { isOpen := true
    tempFilters := sampleTemp
    filters := sampleTemp
    lastChangedKey := some FilterKey.branch
    idMaps := sampleIdMaps
    cascadeOverrides := { emptyOverrides with branches := some ["Pune"] } }

/-- Claim C7 as frozen is false: at the `clearAllFilters` call site of the
FilterBar variant without dropdown tracking, clearing from an open panel
with a recorded last-changed key and nonempty overrides leaves the panel
open, the last-changed tracker set and the overrides nonempty. -/
theorem c7_clear_counterexample :
    (filterBarClearAllFilters c7PriorState).isOpen = true ∧
    (filterBarClearAllFilters c7PriorState).lastChangedKey = some FilterKey.branch ∧
    (filterBarClearAllFilters c7PriorState).cascadeOverrides ≠ emptyOverrides := by
  refine ⟨rfl, rfl, by decide⟩

/-- Claim C7, amended: at the MobileFilterBar call site (and the FilterBar
variant with `activeOpenKey`), `clearAll()` from any prior state leaves
both selections all-empty, the last-changed and open-dropdown trackers
null, the overrides empty, and the panel closed; at the plain FilterBar
call site it only empties both selections (panel state, last-changed
tracker and overrides are retained), and at the hook call site it only
empties the selection (the last-changed tracker is retained). -/
theorem c7_clear_resets (s : MobileFilterBarState) (t : FilterBarState)
    (h : HookState) :
    (∀ k, (mobileClearAllFilters s).filters k = [] ∧
      (mobileClearAllFilters s).tempFilters k = []) ∧
    (mobileClearAllFilters s).lastChangedKey = none ∧
    (mobileClearAllFilters s).activeOpenKey = none ∧
    (mobileClearAllFilters s).cascadeOverrides = emptyOverrides ∧
    (mobileClearAllFilters s).isOpen = false ∧
    (∀ k, (filterBarClearAllFilters t).filters k = [] ∧
      (filterBarClearAllFilters t).tempFilters k = []) ∧
    (filterBarClearAllFilters t).isOpen = t.isOpen ∧
    (filterBarClearAllFilters t).lastChangedKey = t.lastChangedKey ∧
    (filterBarClearAllFilters t).cascadeOverrides = t.cascadeOverrides ∧
    (∀ k, (hookClearAllFilters h).filters k = []) ∧
    (hookClearAllFilters h).lastChangedKey = h.lastChangedKey :=
  ⟨fun _ => ⟨rfl, rfl⟩, rfl, rfl, rfl, rfl,
   fun _ => ⟨rfl, rfl⟩, rfl, rfl, rfl, fun _ => rfl, rfl⟩

/-! ## Claim C4 -/

/-- A concrete prior state for MobileFilterBar / the FilterBar variant with
`activeOpenKey`, with previously published nonempty overrides. -/
def c4PriorState : MobileFilterBarState :=
  { isOpen := true
    activeOpenKey := none
    tempFilters := sampleTemp
    filters := sampleTemp
    lastChangedKey := some FilterKey.branch
    idMaps := sampleIdMaps
    cascadeOverrides := { emptyOverrides with dealers := some ["Dealer A"] } }

/-- Claim C4 as frozen is false: at the cited FilterBar / MobileFilterBar
catch sites, a failed resolve does not retain the previously published
CascadeOverrides - it resets them to the empty object. -/
theorem c4_retained_counterexample :
    (liveCascadeStep c4PriorState (Except.error ())).cascadeOverrides ≠
      c4PriorState.cascadeOverrides ∧
    (liveCascadeStep c4PriorState (Except.error ())).cascadeOverrides =
      emptyOverrides := by
  refine ⟨by decide, rfl⟩

/-- Claim C4, amended: a failed resolve is silently swallowed everywhere
(no error value escapes the handler); at the hook call site the previously
published options and name-to-id maps are retained unchanged, while at the
FilterBar / MobileFilterBar call sites the catch resets the CascadeOverrides
to empty - the display falls back to the base lists - and everything else
(id maps, selections, panel state) is retained. -/
theorem c4_failure_overrides_cleared (s : MobileFilterBarState)
    (h : HookState) (e : Unit) :
    (liveCascadeStep s (Except.error e)).cascadeOverrides = emptyOverrides ∧
    (liveCascadeStep s (Except.error e)).idMaps = s.idMaps ∧
    (liveCascadeStep s (Except.error e)).tempFilters = s.tempFilters ∧
    (liveCascadeStep s (Except.error e)).filters = s.filters ∧
    (liveCascadeStep s (Except.error e)).isOpen = s.isOpen ∧
    hookCascadeStep h (Except.error e) = h :=
  ⟨rfl, rfl, rfl, rfl, rfl, rfl⟩

/-! ### Response cache, pending-call deduplication and the network model

The hook builds `cacheKey = JSON.stringify(params)` (an injective
serialization, so the key is modelled as the parameter record itself),
consults `cascadingCache` (a `useQueryCache` instance), and tracks
in-flight promises in `pendingCallsRef`.  Promises are identified by the
order in which calls were issued; `netCalls` counts issued network calls. -/

/-- One entry of the response cache. -/
structure CacheEntry where
  key : HookParams
  response : CascadingResponse
  expiry : Nat
deriving DecidableEq, Repr

/-- Modelled from the spec: `getCachedData` of the `useQueryCache` hook,
whose implementation is not among the sources (only its call sites are).
Per the CacheEntry contract of the spec, an entry is never served past its
expiry and expired entries are logically absent (evicted lazily on
lookup). -/
def getCachedData (cache : List CacheEntry) (now : Nat) (key : HookParams) :
    Option CascadingResponse :=
  match cache.find? (fun e => e.key == key) with
  | some e => if now < e.expiry then some e.response else none
  | none => none

/-- Modelled from the spec: `setCachedData(key, value, ttl)` of the
`useQueryCache` hook stores the value with expiry `now + ttl`, replacing
any previous entry for the key. -/
def setCachedData (cache : List CacheEntry) (now ttl : Nat) (key : HookParams)
    (res : CascadingResponse) : List CacheEntry :=
  { key := key, response := res, expiry := now + ttl } ::
    cache.filter (fun e => !(e.key == key))

/-- The TTL passed at the hook call site: two minutes. -/
def CACHE_TTL_MS : Nat := 2 * 60 * 1000

/-- Cache, pending-call map and network counters shared by resolves. -/
structure NetState where
  now : Nat
  cache : List CacheEntry
  pending : List (HookParams × Nat)
  promises : Nat
  netCalls : Nat

/-- What a resolve does before suspending: either it is served from the
cache, or it awaits a promise (new or already in flight). -/
inductive ResolveTicket
  | cachedHit (res : CascadingResponse)
  | awaitCall (pid : Nat)
deriving DecidableEq, Repr

/-- The synchronous half of the hook's resolve up to the `await`: cache
lookup, then `pendingCallsRef` lookup, then - only when both miss - a
fresh network call recorded in the pending map. -/
def resolveBegin (s : NetState) (key : HookParams) : NetState × ResolveTicket :=
  match getCachedData s.cache s.now key with
  | some res => (s, ResolveTicket.cachedHit res)
  | none =>
    match s.pending.lookup key with
    | some pid => (s, ResolveTicket.awaitCall pid)
    | none =>
      ({ s with
          pending := (key, s.promises) :: s.pending
          promises := s.promises + 1
          netCalls := s.netCalls + 1 },
       ResolveTicket.awaitCall s.promises)

/-- The continuation after the `await`: on success the pending entry is
deleted and the response cached for two minutes; on rejection control
jumps to the `catch` - the deletion and the cache write are skipped. -/
def resolveEnd (s : NetState) (key : HookParams) (t : ResolveTicket)
    (outcome : Except Unit CascadingResponse) : NetState :=
  match t with
  | ResolveTicket.cachedHit _ => s
  | ResolveTicket.awaitCall _ =>
    match outcome with
    | Except.ok res =>
      { s with
        pending := s.pending.filter (fun p => !(p.1 == key))
        cache := setCachedData s.cache s.now CACHE_TTL_MS key res }
    | Except.error _ => s

/-- One complete resolve whose network call rejects. -/
def failingResolve (s : NetState) (key : HookParams) : NetState :=
  resolveEnd (resolveBegin s key).1 key (resolveBegin s key).2
    (Except.error ())

/-- Repeated failing resolves for the same key, with arbitrary clock
advances between the attempts. -/
def retryFailingAt (key : HookParams) : List Nat → NetState → NetState
  | [], s => s
  | d :: ds, s => retryFailingAt key ds (failingResolve { s with now := s.now + d } key)

/-! ## Claim C6 -/

/-- Claim C6: with the response cache and pending map missing the key, the
first resolve issues exactly one network call; a second resolve begun while
that call is in flight receives a ticket for the same promise and issues no
further call; and after the first call succeeds, a second resolve begun
within the TTL window is served from the cache, the total staying at one
network call. -/
theorem c6_cache_idempotence (s : NetState) (key : HookParams)
    (res : CascadingResponse) (d : Nat)
    (hc : getCachedData s.cache s.now key = none)
    (hp : s.pending.lookup key = none)
    (hd : d < CACHE_TTL_MS) :
    (resolveBegin s key).2 = ResolveTicket.awaitCall s.promises ∧
    (resolveBegin s key).1.netCalls = s.netCalls + 1 ∧
    (resolveBegin (resolveBegin s key).1 key).2 = ResolveTicket.awaitCall s.promises ∧
    (resolveBegin (resolveBegin s key).1 key).1.netCalls = s.netCalls + 1 ∧
    (resolveBegin
        { resolveEnd (resolveBegin s key).1 key (ResolveTicket.awaitCall s.promises)
            (Except.ok res) with
          now := s.now + d } key).2 = ResolveTicket.cachedHit res ∧
    (resolveBegin
        { resolveEnd (resolveBegin s key).1 key (ResolveTicket.awaitCall s.promises)
            (Except.ok res) with
          now := s.now + d } key).1.netCalls = s.netCalls + 1 := by
  have hb : resolveBegin s key =
      ({ s with
          pending := (key, s.promises) :: s.pending
          promises := s.promises + 1
          netCalls := s.netCalls + 1 },
       ResolveTicket.awaitCall s.promises) := by
    unfold resolveBegin
    rw [hc, hp]
  have hb2 : resolveBegin (resolveBegin s key).1 key =
      ((resolveBegin s key).1, ResolveTicket.awaitCall s.promises) := by
    rw [hb]
    unfold resolveBegin
    rw [show getCachedData
        ({ s with
            pending := (key, s.promises) :: s.pending
            promises := s.promises + 1
            netCalls := s.netCalls + 1 } : NetState).cache
        ({ s with
            pending := (key, s.promises) :: s.pending
            promises := s.promises + 1
            netCalls := s.netCalls + 1 } : NetState).now key = none from hc]
    simp [List.lookup]
  have hend : resolveEnd (resolveBegin s key).1 key
      (ResolveTicket.awaitCall s.promises) (Except.ok res) =
      { s with
        pending := ((key, s.promises) :: s.pending).filter (fun p => !(p.1 == key))
        promises := s.promises + 1
        netCalls := s.netCalls + 1
        cache := setCachedData s.cache s.now CACHE_TTL_MS key res } := by
    rw [hb]
    rfl
  have hb3 : resolveBegin
      { resolveEnd (resolveBegin s key).1 key (ResolveTicket.awaitCall s.promises)
          (Except.ok res) with
        now := s.now + d } key =
      ({ resolveEnd (resolveBegin s key).1 key (ResolveTicket.awaitCall s.promises)
          (Except.ok res) with
        now := s.now + d }, ResolveTicket.cachedHit res) := by
    rw [hend]
    unfold resolveBegin
    have hget : getCachedData (setCachedData s.cache s.now CACHE_TTL_MS key res)
        (s.now + d) key = some res := by
      unfold getCachedData setCachedData
      simp only [List.find?]
      have : ({ key := key, response := res, expiry := s.now + CACHE_TTL_MS } :
          CacheEntry).key == key := by simp
      rw [this]
      simp only [Option.some.injEq]
      rw [if_pos (by omega)]
    simp only [hget]
  refine ⟨by rw [hb], by rw [hb], by rw [hb2, hb], by rw [hb2, hb], ?_, ?_⟩
  · rw [hb3]
  · rw [hb3, hend]

/-- An all-empty sample response. -/
def sampleResponse : CascadingResponse :=
  { branches := none, team_leads := none, rms := none,
    source_team_leads := none, source_rms := none, dealers := none,
    lenders := none }

/-- A fresh network state: empty cache, nothing pending, zero clock. -/
def freshNetState : NetState :=
  { now := 0, cache := [], pending := [], promises := 0, netCalls := 0 }

/-- The sample parameter record built from the sample state. -/
def sampleParams : HookParams := hookParams sampleIdMaps sampleTemp

/-- Witness for C6 at a concrete input: empty cache and pending map, zero
clock, a sample parameter set and response, and a ten-second gap. -/
theorem c6_cache_witness :
    getCachedData freshNetState.cache freshNetState.now sampleParams = none ∧
    freshNetState.pending.lookup sampleParams = none ∧
    10000 < CACHE_TTL_MS ∧
    ((resolveBegin freshNetState sampleParams).2 =
        ResolveTicket.awaitCall freshNetState.promises ∧
     (resolveBegin freshNetState sampleParams).1.netCalls =
        freshNetState.netCalls + 1 ∧
     (resolveBegin (resolveBegin freshNetState sampleParams).1 sampleParams).2 =
        ResolveTicket.awaitCall freshNetState.promises ∧
     (resolveBegin (resolveBegin freshNetState sampleParams).1 sampleParams).1.netCalls =
        freshNetState.netCalls + 1 ∧
     (resolveBegin
        { resolveEnd (resolveBegin freshNetState sampleParams).1 sampleParams
            (ResolveTicket.awaitCall freshNetState.promises)
            (Except.ok sampleResponse) with
          now := freshNetState.now + 10000 } sampleParams).2 =
        ResolveTicket.cachedHit sampleResponse ∧
     (resolveBegin
        { resolveEnd (resolveBegin freshNetState sampleParams).1 sampleParams
            (ResolveTicket.awaitCall freshNetState.promises)
            (Except.ok sampleResponse) with
          now := freshNetState.now + 10000 } sampleParams).1.netCalls =
        freshNetState.netCalls + 1) :=
  ⟨rfl, rfl, by decide,
   c6_cache_idempotence freshNetState sampleParams sampleResponse 10000
     rfl rfl (by decide)⟩

/-! ## Claim C9 -/

/-- A resolve for a key whose cache has no entry and whose pending map
already holds a promise neither issues a call nor changes the state when
the awaited promise rejects. -/
theorem failingResolve_fixed (s : NetState) (key : HookParams) (pid : Nat)
    (hcache : s.cache.find? (fun e => e.key == key) = none)
    (hpend : s.pending.lookup key = some pid) :
    failingResolve s key = s := by
  have hget : getCachedData s.cache s.now key = none := by
    unfold getCachedData
    rw [hcache]
  unfold failingResolve
  have hb : resolveBegin s key = (s, ResolveTicket.awaitCall pid) := by
    unfold resolveBegin
    rw [hget, hpend]
  rw [hb]
  rfl

/-- Iterated failing resolves keep the call counter, the pending entry and
the absent cache entry unchanged. -/
theorem retryFailing_invariant (key : HookParams) (pid : Nat) :
    ∀ (ds : List Nat) (s : NetState),
      s.cache.find? (fun e => e.key == key) = none →
      s.pending.lookup key = some pid →
      (retryFailingAt key ds s).netCalls = s.netCalls ∧
      (retryFailingAt key ds s).pending.lookup key = some pid ∧
      (retryFailingAt key ds s).cache.find? (fun e => e.key == key) = none := by
  intro ds
  induction ds with
  | nil => intro s hc hp; exact ⟨rfl, hp, hc⟩
  | cons d ds ih =>
    intro s hc hp
    have hstep : failingResolve { s with now := s.now + d } key =
        { s with now := s.now + d } :=
      failingResolve_fixed { s with now := s.now + d } key pid hc hp
    have hrun : retryFailingAt key (d :: ds) s =
        retryFailingAt key ds { s with now := s.now + d } := by
      show retryFailingAt key ds (failingResolve { s with now := s.now + d } key) = _
      rw [hstep]
    rw [hrun]
    exact ih { s with now := s.now + d } hc hp

/-- Claim C9: when the network call for a key rejects, the pending-map
entry for that key is never removed (removal happens only after a
successful await), so every later resolve with the same parameters
re-awaits the already-rejected promise: across any number of retries at
any later times, the network-call count stays at one and the pending map
still holds the original promise. -/
theorem c9_rejected_pending_sticky (s : NetState) (key : HookParams)
    (ds : List Nat)
    (hcache : s.cache.find? (fun e => e.key == key) = none)
    (hpend : s.pending.lookup key = none) :
    (failingResolve s key).netCalls = s.netCalls + 1 ∧
    (failingResolve s key).pending.lookup key = some s.promises ∧
    (retryFailingAt key ds (failingResolve s key)).netCalls = s.netCalls + 1 ∧
    (retryFailingAt key ds (failingResolve s key)).pending.lookup key =
      some s.promises := by
  have hget : getCachedData s.cache s.now key = none := by
    unfold getCachedData
    rw [hcache]
  have hb : resolveBegin s key =
      ({ s with
          pending := (key, s.promises) :: s.pending
          promises := s.promises + 1
          netCalls := s.netCalls + 1 },
       ResolveTicket.awaitCall s.promises) := by
    unfold resolveBegin
    rw [hget, hpend]
  have hfail : failingResolve s key =
      { s with
        pending := (key, s.promises) :: s.pending
        promises := s.promises + 1
        netCalls := s.netCalls + 1 } := by
    unfold failingResolve
    rw [hb]
    rfl
  have hlook : ((key, s.promises) :: s.pending).lookup key = some s.promises := by
    simp [List.lookup]
  have hinv := retryFailing_invariant key s.promises ds
    { s with
      pending := (key, s.promises) :: s.pending
      promises := s.promises + 1
      netCalls := s.netCalls + 1 } hcache hlook
  refine ⟨by rw [hfail], by rw [hfail]; exact hlook, ?_, ?_⟩
  · rw [hfail]
    exact hinv.1
  · rw [hfail]
    exact hinv.2.1

/-- Witness for C9 at a concrete input: a fresh state, the sample
parameters, and two retries spaced one second and one hour apart. -/
theorem c9_rejected_pending_witness :
    freshNetState.cache.find? (fun e => e.key == sampleParams) = none ∧
    freshNetState.pending.lookup sampleParams = none ∧
    ((failingResolve freshNetState sampleParams).netCalls =
        freshNetState.netCalls + 1 ∧
     (failingResolve freshNetState sampleParams).pending.lookup sampleParams =
        some freshNetState.promises ∧
     (retryFailingAt sampleParams [1000, 3600000]
        (failingResolve freshNetState sampleParams)).netCalls =
        freshNetState.netCalls + 1 ∧
     (retryFailingAt sampleParams [1000, 3600000]
        (failingResolve freshNetState sampleParams)).pending.lookup sampleParams =
        some freshNetState.promises) :=
  ⟨rfl, rfl,
   c9_rejected_pending_sticky freshNetState sampleParams [1000, 3600000] rfl rfl⟩

/-! ### The debounce discipline

The hook's cascading effect (and the live effects of the panel components)
re-runs after every filter change: the cleanup returned by the previous run
calls `clearTimeout` on the previous timer, and a new timer is scheduled at
the change time plus the debounce interval.  A timer that was still pending
when it was cleared never runs its callback - no request is built, nothing
is awaited, no state is updated.  The machine below records, per change
event, whether the previous timer had already expired (and so fired its
resolve, reading `lastChangedKeyRef` at fire time) before being cleared. -/

/-- One `changeFilter` call: its time and the updated category. -/
structure DebChange where
  t : Nat
  key : FilterKey
  values : List String

/-- What a fired resolve captured: the filter state its effect closure
closed over and the last-changed ref read at fire time. -/
structure Snapshot where
  filters : Selection
  lastChangedKey : Option FilterKey

/-- The debounce machine state: current filters and last-changed ref, the
pending timer (expiry time and the filter state its callback closed over),
and the resolves fired so far. -/
structure DebState where
  filters : Selection
  lastChangedKey : Option FilterKey
  pending : Option (Nat × Selection)
  fired : List Snapshot

/-- Process one `changeFilter` call: a previous timer that expired before
this event has already fired its resolve; otherwise `clearTimeout` cancels
it silently.  Then the filter state and the last-changed ref are updated
and a new timer is scheduled one debounce interval later. -/
def applyChange (D : Nat) (s : DebState) (c : DebChange) : DebState :=
  let fired' :=
    match s.pending with
    | some (ft, cap) =>
      if ft ≤ c.t then
        s.fired ++ [{ filters := cap, lastChangedKey := s.lastChangedKey }]
      else s.fired
    | none => s.fired
  let filters' := Function.update s.filters c.key c.values
  { filters := filters'
    lastChangedKey := some c.key
    pending := some (c.t + D, filters')
    fired := fired' }

/-- Process a sequence of `changeFilter` calls. -/
def runChanges (D : Nat) : DebState → List DebChange → DebState
  | s, [] => s
  | s, c :: cs => runChanges D (applyChange D s c) cs

/-- The resolves fired once no further change arrives and the last timer
expires. -/
def flushPending (s : DebState) : List Snapshot :=
  s.fired ++
    (match s.pending with
     | some (_, cap) => [{ filters := cap, lastChangedKey := s.lastChangedKey }]
     | none => [])

/-- The change times are nondecreasing and each consecutive gap is below
the debounce interval. -/
def withinDebounce (D : Nat) : List DebChange → Bool
  | a :: b :: r =>
    (decide (a.t ≤ b.t) && decide (b.t < a.t + D)) && withinDebounce D (b :: r)
  | _ => true

/-- The filter state after a sequence of changes. -/
def finalFilters (f : Selection) (cs : List DebChange) : Selection :=
  cs.foldl (fun g c => Function.update g c.key c.values) f

/-- The last change of a nonempty sequence. -/
def lastChange (c : DebChange) : List DebChange → DebChange
  | [] => c
  | c' :: cs => lastChange c' cs

/-- Running a change sequence whose gaps stay below the debounce interval,
from a state whose pending timer (if any) expires after the first change,
fires nothing and leaves exactly the final state pending. -/
theorem runChanges_collapse (D : Nat) :
    ∀ (cs : List DebChange) (c : DebChange) (s : DebState),
      s.fired = [] →
      (∀ ft cap, s.pending = some (ft, cap) → c.t < ft) →
      withinDebounce D (c :: cs) = true →
      runChanges D s (c :: cs) =
        { filters := finalFilters s.filters (c :: cs)
          lastChangedKey := some (lastChange c cs).key
          pending := some ((lastChange c cs).t + D, finalFilters s.filters (c :: cs))
          fired := [] } := by
  intro cs
  induction cs with
  | nil =>
    intro c s hf hpend _
    show applyChange D s c = _
    unfold applyChange
    cases hp : s.pending with
    | none => simp [hp, hf, finalFilters, lastChange]
    | some p =>
      obtain ⟨ft, cap⟩ := p
      have hlt : ¬ ft ≤ c.t := by
        have := hpend ft cap hp
        omega
      simp [hp, hf, hlt, finalFilters, lastChange]
  | cons c' cs ih =>
    intro c s hf hpend hw
    have hw' : ((decide (c.t ≤ c'.t) && decide (c'.t < c.t + D)) &&
        withinDebounce D (c' :: cs)) = true := hw
    simp only [Bool.and_eq_true, decide_eq_true_eq] at hw'
    have hw1 : withinDebounce D (c' :: cs) = true := hw'.2
    have hlt : c'.t < c.t + D := hw'.1.2
    have hfired : (applyChange D s c).fired = [] := by
      unfold applyChange
      cases hp : s.pending with
      | none => simp [hp, hf]
      | some p =>
        obtain ⟨ft, cap⟩ := p
        have hle : ¬ ft ≤ c.t := by
          have := hpend ft cap hp
          omega
        simp [hp, hf, hle]
    have hpend1 : ∀ ft cap, (applyChange D s c).pending = some (ft, cap) →
        c'.t < ft := by
      intro ft cap hpc
      have : (applyChange D s c).pending =
          some (c.t + D, Function.update s.filters c.key c.values) := rfl
      rw [this] at hpc
      have hft : ft = c.t + D := by
        injection hpc with h1
        injection h1 with h2 _
        omega
      omega
    show runChanges D (applyChange D s c) (c' :: cs) = _
    rw [ih c' (applyChange D s c) hfired hpend1 hw1]
    rfl

/-! ## Claim C3 -/

/-- Claim C3: for a nonempty sequence of `changeFilter` calls each within
less than the debounce interval of the previous, no superseded timer ever
fires (so superseded pending resolves update nothing), exactly one resolve
fires - carrying the selection state of the final change and the final
change's category as `lastChangedCategory` - and that single resolve, when
its parameters miss both the response cache and the pending-call map,
issues exactly one network call. -/
theorem c3_debounce_collapse (D : Nat) (s0 : DebState) (c : DebChange)
    (cs : List DebChange) (hf : s0.fired = []) (hp : s0.pending = none)
    (hw : withinDebounce D (c :: cs) = true) :
    (runChanges D s0 (c :: cs)).fired = [] ∧
    flushPending (runChanges D s0 (c :: cs)) =
      [{ filters := finalFilters s0.filters (c :: cs)
         lastChangedKey := some (lastChange c cs).key }] ∧
    (∀ (ns : NetState) (idm : IdMaps),
      getCachedData ns.cache ns.now
          (hookParams idm (finalFilters s0.filters (c :: cs))) = none →
      ns.pending.lookup (hookParams idm (finalFilters s0.filters (c :: cs))) = none →
      (resolveBegin ns (hookParams idm (finalFilters s0.filters (c :: cs)))).1.netCalls =
        ns.netCalls + 1) := by
  have hrun := runChanges_collapse D cs c s0 hf
    (by intro ft cap hc; rw [hp] at hc; cases hc) hw
  refine ⟨by rw [hrun], by rw [hrun]; rfl, ?_⟩
  intro ns idm hc hpend
  unfold resolveBegin
  rw [hc, hpend]

/-- Concrete machine inputs for the C3 witness: two changes, 100
milliseconds apart, against a 150 millisecond debounce. -/
def c3StartState : DebState :=
  { filters := emptySelection, lastChangedKey := none, pending := none
    fired := [] }

def c3Change1 : DebChange :=
  { t := 0, key := FilterKey.branch, values := ["Pune"] }

def c3Change2 : DebChange :=
  { t := 100, key := FilterKey.rm, values := ["Ravi"] }

/-- Witness for C3 at a concrete input. -/
theorem c3_debounce_witness :
    c3StartState.fired = [] ∧
    c3StartState.pending = none ∧
    withinDebounce 150 [c3Change1, c3Change2] = true ∧
    ((runChanges 150 c3StartState [c3Change1, c3Change2]).fired = [] ∧
     flushPending (runChanges 150 c3StartState [c3Change1, c3Change2]) =
       [{ filters := finalFilters c3StartState.filters [c3Change1, c3Change2]
          lastChangedKey := some (lastChange c3Change1 [c3Change2]).key }] ∧
     (∀ (ns : NetState) (idm : IdMaps),
       getCachedData ns.cache ns.now
           (hookParams idm (finalFilters c3StartState.filters
             [c3Change1, c3Change2])) = none →
       ns.pending.lookup (hookParams idm (finalFilters c3StartState.filters
           [c3Change1, c3Change2])) = none →
       (resolveBegin ns (hookParams idm (finalFilters c3StartState.filters
           [c3Change1, c3Change2]))).1.netCalls = ns.netCalls + 1)) :=
  ⟨rfl, rfl, by decide,
   c3_debounce_collapse 150 c3StartState c3Change1 [c3Change2] rfl rfl (by decide)⟩
